import Mathlib

/-
Verification of the snapshot-diff reconciliation and KPI pipeline of the
vinted-scraper repository (process_data.py and calculate_kpis.py).

Strings are modelled as lists of characters.  Python str.lower is modelled
for the ASCII range (an association table of the 26 uppercase letters),
str.strip as removal of leading and trailing whitespace, and the Python
substring test `a in b` as an executable infix search.  Timestamps are
integers (seconds), prices and derived statistics are rationals, and the
pandas NaN produced by aggregating an empty series is modelled as an
Option that is none exactly when the series is empty.
-/

namespace VintedSpec

/- ===================== definitions: string primitives ===================== -/

/-- Character list of a string literal. -/
def cs (s : String) : List Char := s.data

/-- First-match association lookup, modelling a Python dict lookup (the
dictionaries in the source have pairwise distinct keys). -/
def alookup {κ α : Type} [DecidableEq κ] : List (κ × α) → κ → Option α
  | [], _ => none
  | (k, v) :: rest, key => if key = k then some v else alookup rest key

/-- The 26 ASCII uppercase letters with their lowercase forms. -/
def upperLowerPairs : List (Char × Char) :=
  [('A','a'), ('B','b'), ('C','c'), ('D','d'), ('E','e'), ('F','f'),
   ('G','g'), ('H','h'), ('I','i'), ('J','j'), ('K','k'), ('L','l'),
   ('M','m'), ('N','n'), ('O','o'), ('P','p'), ('Q','q'), ('R','r'),
   ('S','s'), ('T','t'), ('U','u'), ('V','v'), ('W','w'), ('X','x'),
   ('Y','y'), ('Z','z')]

/-- Model of Python str.lower on one character (ASCII range). -/
def lowerChar (c : Char) : Char := (alookup upperLowerPairs c).getD c

/-- Model of Python str.lower. -/
def lower (l : List Char) : List Char := l.map lowerChar

/-- Model of Python str.lstrip (leading whitespace removal). -/
def lstrip (l : List Char) : List Char := l.dropWhile (fun c => c.isWhitespace)

/-- Model of Python str.rstrip (trailing whitespace removal). -/
def rstrip (l : List Char) : List Char := (lstrip l.reverse).reverse

/-- Model of Python str.strip. -/
def strip (l : List Char) : List Char := lstrip (rstrip l)

/-- Executable test that the needle list is an initial segment of the hay list. -/
def isPre : List Char → List Char → Bool
  | [], _ => true
  | _ :: _, [] => false
  | a :: as, b :: bs => a == b && isPre as bs

/-- Model of the Python substring test `needle in hay`. -/
def subIn (n : List Char) : List Char → Bool
  | [] => n.isEmpty
  | c :: t => isPre n (c :: t) || subIn n t

/-- True when some keyword of the list occurs as a substring of the text,
modelling the `any(word in text for word in [...])` idiom of the source. -/
def anyKw (kws : List (List Char)) (text : List Char) : Bool :=
  kws.any (fun k => subIn k text)

/- ===================== definitions: normalizer ===================== -/

/-- ASCII code 39 (apostrophe), used by three brand names. -/
def apos : Char := Char.ofNat 39

/-- The `brand_map` dictionary of `normalize_brand` in process_data.py. -/
def brandPairs : List (List Char × List Char) :=
  [ (cs "zara", cs "Zara"),
    (cs "zara trafaluc", cs "Zara"),
    (cs "zara basic", cs "Zara"),
    (cs "zara trf", cs "Zara"),
    (cs "h&m", cs "H&M"),
    (cs "hm", cs "H&M"),
    (cs "h & m", cs "H&M"),
    (cs "h&m divided", cs "H&M"),
    (cs "mango", cs "Mango"),
    (cs "mango suit", cs "Mango"),
    (cs "nike", cs "Nike"),
    (cs "nike sportswear", cs "Nike"),
    (['l','e','v','i', apos, 's'], ['L','e','v','i', apos, 's']),
    (cs "levis", ['L','e','v','i', apos, 's']),
    (cs "levi strauss", ['L','e','v','i', apos, 's']) ]

/-- Model of `normalize_brand` (process_data.py lines 23 to 47): a missing
value (pandas NaN, modelled as none) passes through; otherwise the brand is
looked up lowercased and stripped, defaulting to the stripped raw brand. -/
def normalize_brand (brand_raw : Option (List Char)) : Option (List Char) :=
  match brand_raw with
  | none => none
  | some b => some ((alookup brandPairs (strip (lower b))).getD (strip b))

/-- Keywords of the Dress branch of `normalize_category`. -/
def dressKws : List (List Char) := [cs "vestido", cs "dress", cs "vestidos"]

/-- Keywords of the Sneakers branch of `normalize_category`. -/
def sneakerKws : List (List Char) :=
  [cs "zapatilla", cs "sneaker", cs "deportiva", cs "trainer"]

/-- Keywords of the T-shirt branch of `normalize_category`. -/
def tshirtKws : List (List Char) :=
  [cs "camiseta", cs "t-shirt", cs "tshirt", cs "tee", cs "top"]

/-- Keywords of the Jeans branch of `normalize_category`. -/
def jeansKws : List (List Char) :=
  [cs "vaquero", cs "jean", cs "denim", cs "pantalón"]

/-- The combined lowercased search text of `normalize_category`:
`(str(category_raw) + " " + str(title)).lower()`. -/
def catText (c t : List Char) : List Char := lower (c ++ ' ' :: t)

/-- Model of `normalize_category` (process_data.py lines 50 to 64): the
first keyword group found in the combined category-and-title text wins,
otherwise the raw category passes through. -/
def normalize_category (category_raw title : List Char) : List Char :=
  if anyKw dressKws (catText category_raw title) then cs "Dress"
  else if anyKw sneakerKws (catText category_raw title) then cs "Sneakers"
  else if anyKw tshirtKws (catText category_raw title) then cs "T-shirt"
  else if anyKw jeansKws (catText category_raw title) then cs "Jeans"
  else category_raw

/-- Keywords of the New/Like new branch of `normalize_condition`. -/
def newKws : List (List Char) :=
  [cs "nuevo", cs "new", cs "etiqueta", cs "tag", cs "sin estrenar",
   cs "nunca usado", cs "never worn", cs "con etiqueta"]

/-- Keywords of the Very good/Good branch of `normalize_condition`. -/
def goodKws : List (List Char) :=
  [cs "muy bueno", cs "very good", cs "bueno", cs "good",
   cs "excelente", cs "excellent", cs "perfecto", cs "perfect"]

/-- Keywords of the Average/Poor branch of `normalize_condition`. -/
def avgKws : List (List Char) :=
  [cs "satisfactorio", cs "satisfactory", cs "aceptable", cs "acceptable",
   cs "usado", cs "used", cs "worn", cs "fair", cs "average", cs "poor"]

/-- Model of `normalize_condition` (process_data.py lines 67 to 95): a
missing value becomes the Unknown bucket, all other inputs are bucketed by
keyword search with Average/Poor as the default tier. -/
def normalize_condition (condition_raw : Option (List Char)) : List Char :=
  match condition_raw with
  | none => cs "Unknown"
  | some s =>
    if anyKw newKws (lower s) then cs "New/Like new"
    else if anyKw goodKws (lower s) then cs "Very good/Good"
    else if anyKw avgKws (lower s) then cs "Average/Poor"
    else cs "Average/Poor"

/- ===================== definitions: reconciler data model ===================== -/

/-- Listing status: the source only ever writes the strings active and sold. -/
inductive Status where
  | active
  | sold
deriving DecidableEq

/-- One row of the listings table, after `process_new_scrape` has added the
normalized columns.  Timestamps are seconds, prices are rationals, and a
missing `published_at` is none. -/
structure Listing where
  item_id : Nat
  price : ℚ
  brand_norm : List Char
  category_norm : List Char
  condition_bucket : List Char
  audience : List Char
  currency : List Char
  season : Option (List Char)
  status : Status
  first_seen_at : Int
  last_seen_at : Int
  published_at : Option Int
deriving DecidableEq

/-- One row of the sold-events table, as built by `detect_sold_items`.
The `event_id` models the f-string `SE_{item_id}_{int(now.timestamp())}`
as the pair of its two variable parts. -/
structure SoldEvent where
  event_id : Nat × Int
  item_id : Nat
  brand : List Char
  category : List Char
  condition : List Char
  audience : List Char
  last_price : ℚ
  currency : List Char
  sold_at : Int
  published_at : Int
  first_seen_at : Int
  days_to_sell : ℚ
  sold_confidence : ℚ
  season : Option (List Char)
deriving DecidableEq

/-- One row of the price-events table, as built by `detect_price_changes`. -/
structure PriceEvent where
  event_id : Nat × Int
  item_id : Nat
  old_price : ℚ
  new_price : ℚ
  changed_at : Int
  brand : List Char
  category : List Char
deriving DecidableEq

/-- One hour in seconds. -/
def hour : Int := 3600

/-- The listing date used by `detect_sold_items` (process_data.py lines 259
to 263): `published_at` when present, else `first_seen_at`. -/
def listingDate (item : Listing) : Int := item.published_at.getD item.first_seen_at

/-- The confidence step function of `detect_sold_items` (lines 268 to 274):
1.0 when missing at least 48 hours, 0.5 when at least 24 hours, else 0.0. -/
def soldConfidence (timeDiff : Int) : ℚ :=
  if 48 * hour ≤ timeDiff then 1
  else if 24 * hour ≤ timeDiff then mkRat 1 2
  else 0

/-- The sold event built for one disappeared item (lines 276 to 291).
`sold_at` is the detection time `now` and `days_to_sell` is the seconds
from the listing date to `now`, divided by 86400. -/
def soldEventOf (item : Listing) (now : Int) : SoldEvent :=
  { event_id := (item.item_id, now)
    item_id := item.item_id
    brand := item.brand_norm
    category := item.category_norm
    condition := item.condition_bucket
    audience := item.audience
    last_price := item.price
    currency := item.currency
    sold_at := now
    published_at := listingDate item
    first_seen_at := item.first_seen_at
    days_to_sell := ((now - listingDate item : Int) : ℚ) / 86400
    sold_confidence := soldConfidence (now - item.last_seen_at)
    season := item.season }

/-- The item_id column of a table. -/
def itemIds (l : List Listing) : List Nat := l.map (fun r => r.item_id)

/-- First row carrying the given item_id, modelling
`df[df['item_id'] == item_id].iloc[0]` (tables keep one row per item_id). -/
def findRow (l : List Listing) (id : Nat) : Option Listing :=
  l.find? (fun r => r.item_id == id)

/-- The set difference `previous_ids - current_ids` of `detect_sold_items`,
in first-occurrence order. -/
def missingIds (current previous : List Listing) : List Nat :=
  ((itemIds previous).dedup).filter (fun id => decide (id ∉ itemIds current))

/-- Model of `detect_sold_items` (process_data.py lines 231 to 299).  The
`hours_threshold` parameter mirrors the source signature; the source never
reads it, so neither does the model. -/
def detect_sold_items (current previous : List Listing) (now : Int)
    (hours_threshold : Int) : List SoldEvent :=
  if previous.isEmpty then []
  else (missingIds current previous).filterMap
    (fun id => (findRow previous id).map (fun item => soldEventOf item now))

/-- Model of `detect_price_changes` (lines 189 to 228): items present in
both tables whose price differs yield one event each. -/
def detect_price_changes (current previous : List Listing) (now : Int) : List PriceEvent :=
  if previous.isEmpty then []
  else current.filterMap (fun c =>
    match findRow previous c.item_id with
    | none => none
    | some p =>
      if c.price ≠ p.price then
        some { event_id := (c.item_id, now)
               item_id := c.item_id
               old_price := p.price
               new_price := c.price
               changed_at := now
               brand := c.brand_norm
               category := c.category_norm }
      else none)

/-- The `new_items` slice of `update_listings_database`. -/
def newItemsOf (current previous : List Listing) : List Listing :=
  current.filter (fun c => decide (c.item_id ∉ itemIds previous))

/-- The `existing_current` slice of `update_listings_database`: rows present
in both tables keep the current values except `first_seen_at` and
`published_at`, restored from the previous table by the item_id merge. -/
def existingItemsOf (current previous : List Listing) : List Listing :=
  (current.filter (fun c => decide (c.item_id ∈ itemIds previous))).map
    (fun c =>
      match findRow previous c.item_id with
      | some p => { c with first_seen_at := p.first_seen_at, published_at := p.published_at }
      | none => c)

/-- The `sold_items` slice of `update_listings_database` (lines 341 to 345):
every previous row absent from the current snapshot, with status set to
sold and `last_seen_at` set to `datetime.now()`. -/
def soldItemsOf (current previous : List Listing) (now : Int) : List Listing :=
  (previous.filter (fun p => decide (p.item_id ∉ itemIds current))).map
    (fun p => { p with status := Status.sold, last_seen_at := now })

/-- Model of `update_listings_database` (lines 302 to 361). -/
def update_listings_database (current previous : List Listing) (now : Int) : List Listing :=
  if previous.isEmpty then current
  else existingItemsOf current previous ++ newItemsOf current previous ++
    soldItemsOf current previous now

/-- Model of the sold-events branch of `save_processed_data` (lines 408 to
420): a non-empty batch is concatenated onto the existing log; nothing is
deduplicated. -/
def appendEvents {α : Type} (log batch : List α) : List α :=
  if batch.isEmpty then log else log ++ batch

/- ===================== definitions: KPI engine ===================== -/

/-- The keyword filter set accepted by every KPI function.  A none field or
an empty list is falsy in Python, so both mean no filtering. -/
structure Filters where
  brand : Option (List (List Char))
  category : Option (List (List Char))
  audience : Option (List (List Char))
  status : Option (List Status)
  season : Option (List (List Char))

/-- No filters at all. -/
def noFilter : Filters :=
  { brand := none, category := none, audience := none, status := none, season := none }

/-- One `if crit: filtered = filtered[filtered[col].isin(crit)]` step of
`apply_filters`. -/
def truthyApply {α β : Type} [DecidableEq β]
    (crit : Option (List β)) (get : α → β) (rows : List α) : List α :=
  match crit with
  | none => rows
  | some [] => rows
  | some vs => rows.filter (fun r => decide (get r ∈ vs))

/-- The season step of `apply_filters`: the season column is nullable and a
null never matches an isin list. -/
def seasonApply {α : Type}
    (crit : Option (List (List Char))) (get : α → Option (List Char))
    (rows : List α) : List α :=
  match crit with
  | none => rows
  | some [] => rows
  | some vs => rows.filter (fun r =>
      match get r with
      | some v => decide (v ∈ vs)
      | none => false)

/-- `apply_filters` on the listings table (brand, category, audience,
status, season, in source order). -/
def applyFiltersListings (f : Filters) (rows : List Listing) : List Listing :=
  seasonApply f.season (fun r => r.season)
    (truthyApply f.status (fun r => r.status)
      (truthyApply f.audience (fun r => r.audience)
        (truthyApply f.category (fun r => r.category_norm)
          (truthyApply f.brand (fun r => r.brand_norm) rows))))

/-- `apply_filters` on the sold-events table; the events table has no
status column and the KPI callers never pass a status filter for it. -/
def applyFiltersEvents (f : Filters) (rows : List SoldEvent) : List SoldEvent :=
  seasonApply f.season (fun r => r.season)
    (truthyApply f.audience (fun r => r.audience)
      (truthyApply f.category (fun r => r.category)
        (truthyApply f.brand (fun r => r.brand) rows)))

/-- The filtered events with `sold_confidence >= 0.5`, shared by
`calculate_days_to_sell` and `calculate_sell_through_30d`. -/
def highConfOf (f : Filters) (events : List SoldEvent) : List SoldEvent :=
  (applyFiltersEvents f events).filter (fun e => decide (mkRat 1 2 ≤ e.sold_confidence))

/-- The high-confidence filtered events with `days_to_sell <= 30`. -/
def sold30Of (f : Filters) (events : List SoldEvent) : List SoldEvent :=
  (highConfOf f events).filter (fun e => decide (e.days_to_sell ≤ 30))

/-- The pandas linear-interpolation quantile of a non-empty series (on an
empty series the callers below either guard or wrap in an Option). -/
def quantileQ (l : List ℚ) (q : ℚ) : ℚ :=
  let s := List.insertionSort (· ≤ ·) l
  let pos : ℚ := q * ((s.length : ℚ) - 1)
  let lo := s.getD (Int.toNat ⌊pos⌋) 0
  let hi := s.getD (Int.toNat ⌈pos⌉) 0
  lo + (hi - lo) * (pos - (⌊pos⌋ : ℚ))

/-- Minimum of a series, none when empty (pandas NaN). -/
def listMinQ : List ℚ → Option ℚ
  | [] => none
  | x :: xs => some (xs.foldl min x)

/-- Maximum of a series, none when empty (pandas NaN). -/
def listMaxQ : List ℚ → Option ℚ
  | [] => none
  | x :: xs => some (xs.foldl max x)

/-- The dict returned by `calculate_days_to_sell` on a non-empty
high-confidence population. -/
structure DtsStats where
  median : ℚ
  mean : ℚ
  p25 : ℚ
  p75 : ℚ
  count : Nat
  min : ℚ
  max : ℚ
deriving DecidableEq

/-- The statistics dict of `calculate_days_to_sell` over a population that
its caller has checked to be non-empty. -/
def dtsStatsOf (high : List SoldEvent) : DtsStats :=
  { median := quantileQ (high.map (fun e => e.days_to_sell)) (1/2)
    mean := (high.map (fun e => e.days_to_sell)).sum / (high.length : ℚ)
    p25 := quantileQ (high.map (fun e => e.days_to_sell)) (1/4)
    p75 := quantileQ (high.map (fun e => e.days_to_sell)) (3/4)
    count := high.length
    min := (listMinQ (high.map (fun e => e.days_to_sell))).getD 0
    max := (listMaxQ (high.map (fun e => e.days_to_sell))).getD 0 }

/-- Model of `calculate_days_to_sell` (calculate_kpis.py lines 103 to 140):
none when the events table is empty or when no filtered event has
confidence at least 0.5, else the statistics dict. -/
def calculate_days_to_sell (sold_events : List SoldEvent) (f : Filters) : Option DtsStats :=
  if sold_events.isEmpty then none
  else if (highConfOf f sold_events).isEmpty then none
  else some (dtsStatsOf (highConfOf f sold_events))

/-- The dict returned by `calculate_sell_through_30d`. -/
structure SellThroughStats where
  percentage : ℚ
  sold_30d : Nat
  total_sold : Nat
deriving DecidableEq

/-- Model of `calculate_sell_through_30d` (calculate_kpis.py lines 143 to
179).  The `listings` parameter mirrors the source signature; the source
never reads it — the denominator is the count of filtered high-confidence
sold events, not a listings count. -/
def calculate_sell_through_30d (sold_events : List SoldEvent) (listings : List Listing)
    (f : Filters) : Option SellThroughStats :=
  if sold_events.isEmpty then none
  else if (highConfOf f sold_events).isEmpty then none
  else some
    { percentage :=
        (((sold30Of f sold_events).length : ℚ) / ((highConfOf f sold_events).length : ℚ)) * 100
      sold_30d := (sold30Of f sold_events).length
      total_sold := (highConfOf f sold_events).length }

/-- The 30-day sell-through formula as the SPEC states it, for comparison
with the source model: numerator counts filtered sold events with
days_to_sell at most 30 and confidence at or above the threshold,
denominator counts all filtered listings of any status, the percentage is
hard-capped at 100, and a zero denominator gives none. -/
def spec_sell_through_30d (sold_events : List SoldEvent) (listings : List Listing)
    (f : Filters) : Option ℚ :=
  if (applyFiltersListings f listings).length = 0 then none
  else some (min
    ((((sold30Of f sold_events).length : ℚ) / ((applyFiltersListings f listings).length : ℚ)) * 100)
    100)

/-- The dict returned by `calculate_price_distribution`; every aggregate is
none exactly when it would be a pandas NaN (empty series).  The `std`
entry of the source dict (an irrational square root, ddof 1) is not
modelled; no claim refers to it. -/
structure PriceStats where
  p25 : Option ℚ
  p50 : Option ℚ
  p75 : Option ℚ
  mean : Option ℚ
  min : Option ℚ
  max : Option ℚ
  count : Nat
deriving DecidableEq

/-- Quantile with the pandas NaN-on-empty convention. -/
def quantileOpt (l : List ℚ) (q : ℚ) : Option ℚ :=
  if l.isEmpty then none else some (quantileQ l q)

/-- Mean with the pandas NaN-on-empty convention. -/
def meanOpt (l : List ℚ) : Option ℚ :=
  if l.isEmpty then none else some (l.sum / (l.length : ℚ))

/-- The price column of the filtered listings after the `price > 0`
exclusion of `calculate_price_distribution`. -/
def posPricesOf (f : Filters) (listings : List Listing) : List ℚ :=
  ((applyFiltersListings f listings).filter (fun r => decide (0 < r.price))).map
    (fun r => r.price)

/-- Model of `calculate_price_distribution` (calculate_kpis.py lines 182 to
217): none only when the filters match nothing; the zero-price exclusion
happens after that emptiness check. -/
def calculate_price_distribution (listings : List Listing) (f : Filters) : Option PriceStats :=
  if (applyFiltersListings f listings).isEmpty then none
  else some
    { p25 := quantileOpt (posPricesOf f listings) (1/4)
      p50 := quantileOpt (posPricesOf f listings) (1/2)
      p75 := quantileOpt (posPricesOf f listings) (3/4)
      mean := meanOpt (posPricesOf f listings)
      min := listMinQ (posPricesOf f listings)
      max := listMaxQ (posPricesOf f listings)
      count := (posPricesOf f listings).length }

/-- The dict returned by `calculate_liquidity_score`. -/
structure Liquidity where
  score : ℚ
  sell_through_component : ℚ
  dts_component : ℚ
  grade : List Char
deriving DecidableEq

/-- Model of `calculate_liquidity_score` (calculate_kpis.py lines 300 to
330): none when either input dict is missing, else the sum of the
sell-through component `percentage / 100 * 50` (no upper cap) and the
speed component `max(0, (1 - median/30) * 50)` (floored at 0, no upper
cap), with the letter grade of the uncapped sum. -/
def calculate_liquidity_score (dts : Option DtsStats) (st : Option SellThroughStats) :
    Option Liquidity :=
  match dts, st with
  | some d, some s =>
    some
      { score := s.percentage / 100 * 50 + max 0 ((1 - d.median / 30) * 50)
        sell_through_component := s.percentage / 100 * 50
        dts_component := max 0 ((1 - d.median / 30) * 50)
        grade :=
          if 75 ≤ s.percentage / 100 * 50 + max 0 ((1 - d.median / 30) * 50) then cs "A"
          else if 50 ≤ s.percentage / 100 * 50 + max 0 ((1 - d.median / 30) * 50) then cs "B"
          else if 25 ≤ s.percentage / 100 * 50 + max 0 ((1 - d.median / 30) * 50) then cs "C"
          else cs "D" }
  | _, _ => none

/- ===================== definitions: concrete test rows ===================== -/

/-- A listing row with the given identity, price, observation times and
published date; the categorical columns are fixed representative values. -/
def sampleListing (id : Nat) (price : ℚ) (firstSeen lastSeen : Int)
    (pub : Option Int) : Listing :=
  { item_id := id
    price := price
    brand_norm := cs "Zara"
    category_norm := cs "Dress"
    condition_bucket := cs "New/Like new"
    audience := cs "women"
    currency := cs "EUR"
    season := none
    status := Status.active
    first_seen_at := firstSeen
    last_seen_at := lastSeen
    published_at := pub }

/-- A sold event with full confidence and ten days to sell. -/
def evHigh : SoldEvent :=
  { event_id := (9, 0)
    item_id := 9
    brand := cs "Zara"
    category := cs "Dress"
    condition := cs "New/Like new"
    audience := cs "women"
    last_price := 20
    currency := cs "EUR"
    sold_at := 0
    published_at := 0
    first_seen_at := 0
    days_to_sell := 10
    sold_confidence := 1
    season := none }

/-- A sold event with zero confidence. -/
def evLow : SoldEvent :=
  { evHigh with item_id := 10, event_id := (10, 0), sold_confidence := 0 }

/-- Degenerate DTS statistics with a negative median. -/
def degenerateDts : DtsStats :=
  { median := -30, mean := -30, p25 := -30, p75 := -30, count := 1, min := -30, max := -30 }

/-- Degenerate sell-through statistics with a percentage above 100. -/
def degenerateSt : SellThroughStats :=
  { percentage := 300, sold_30d := 3, total_sold := 1 }

/-- Well-formed DTS statistics (median 10 days). -/
def okDts : DtsStats :=
  { median := 10, mean := 10, p25 := 8, p75 := 12, count := 4, min := 5, max := 15 }

/-- Well-formed sell-through statistics (40 percent). -/
def okSt : SellThroughStats :=
  { percentage := 40, sold_30d := 2, total_sold := 5 }

/- ===================== theorems: string primitives ===================== -/

theorem alookup_mem {κ α : Type} [DecidableEq κ] :
    ∀ {l : List (κ × α)} {k : κ} {v : α}, alookup l k = some v → (k, v) ∈ l := by
  intro l
  induction l with
  | nil => intro k v h; simp [alookup] at h
  | cons p rest ih =>
    intro k v h
    obtain ⟨pk, pv⟩ := p
    by_cases hk : k = pk
    · subst hk
      simp [alookup] at h
      simp [h]
    · simp [alookup, hk] at h
      exact List.mem_cons_of_mem _ (ih h)

theorem pairs_not_ws :
    ∀ p ∈ upperLowerPairs, p.1.isWhitespace = false ∧ p.2.isWhitespace = false := by
  decide

theorem lowerChar_ws (c : Char) : (lowerChar c).isWhitespace = c.isWhitespace := by
  unfold lowerChar
  cases h : alookup upperLowerPairs c with
  | none => rfl
  | some v =>
    have hp := pairs_not_ws _ (alookup_mem h)
    simp only [Option.getD_some]
    rw [hp.2, hp.1]

theorem lstrip_cons_ws {a : Char} (t : List Char) (h : a.isWhitespace = true) :
    lstrip (a :: t) = lstrip t := by
  simp [lstrip, List.dropWhile_cons, h]

theorem lstrip_cons_not {a : Char} (t : List Char) (h : a.isWhitespace = false) :
    lstrip (a :: t) = a :: t := by
  simp [lstrip, List.dropWhile_cons, h]

theorem lstrip_head : ∀ {l c t}, lstrip l = c :: t → c.isWhitespace = false := by
  intro l
  induction l with
  | nil => intro c t h; simp [lstrip] at h
  | cons a as ih =>
    intro c t h
    cases hw : a.isWhitespace with
    | true => rw [lstrip_cons_ws as hw] at h; exact ih h
    | false => rw [lstrip_cons_not as hw] at h; cases h; exact hw

theorem lstrip_idem (l : List Char) : lstrip (lstrip l) = lstrip l := by
  cases h : lstrip l with
  | nil => simp [lstrip]
  | cons c t => exact lstrip_cons_not t (lstrip_head h)

theorem lstrip_decomp (l : List Char) :
    ∃ u, (∀ c ∈ u, c.isWhitespace = true) ∧ l = u ++ lstrip l := by
  induction l with
  | nil => exact ⟨[], by simp, by simp [lstrip]⟩
  | cons a as ih =>
    cases hw : a.isWhitespace with
    | true =>
      obtain ⟨u, hu, hdec⟩ := ih
      refine ⟨a :: u, ?_, ?_⟩
      · intro c hc
        rcases List.mem_cons.mp hc with rfl | hc
        · exact hw
        · exact hu c hc
      · rw [lstrip_cons_ws as hw, List.cons_append]
        exact congrArg (a :: ·) hdec
    | false => exact ⟨[], by simp, by rw [lstrip_cons_not as hw]; simp⟩

theorem rstrip_lstrip (y : List Char) (h : ∀ c t, y.reverse = c :: t → c.isWhitespace = false) :
    rstrip (lstrip y) = lstrip y := by
  unfold rstrip
  obtain ⟨u, hu, hdec⟩ := lstrip_decomp y
  cases hd : (lstrip y).reverse with
  | nil =>
    have h0 : lstrip y = [] := by simpa using congrArg List.reverse hd
    rw [h0]
    rfl
  | cons c t =>
    have hyrev : y.reverse = c :: (t ++ u.reverse) := by
      conv_lhs => rw [hdec]
      rw [List.reverse_append, hd, List.cons_append]
    have hc : c.isWhitespace = false := h c (t ++ u.reverse) hyrev
    rw [lstrip_cons_not t hc, ← hd, List.reverse_reverse]

theorem strip_idem (l : List Char) : strip (strip l) = strip l := by
  unfold strip
  have hrev : (rstrip l).reverse = lstrip l.reverse := by
    unfold rstrip; rw [List.reverse_reverse]
  have h : ∀ c t, (rstrip l).reverse = c :: t → c.isWhitespace = false := by
    intro c t hct
    rw [hrev] at hct
    exact lstrip_head hct
  rw [rstrip_lstrip (rstrip l) h, lstrip_idem]

theorem lstrip_lower (l : List Char) : lstrip (lower l) = lower (lstrip l) := by
  induction l with
  | nil => simp [lstrip, lower]
  | cons a as ih =>
    cases hw : a.isWhitespace with
    | true =>
      have h1 : lstrip (lower (a :: as)) = lstrip (lower as) := by
        simp only [lower, List.map_cons]
        exact lstrip_cons_ws _ (by rw [lowerChar_ws]; exact hw)
      rw [h1, lstrip_cons_ws as hw, ih]
    | false =>
      have h1 : lstrip (lower (a :: as)) = lower (a :: as) := by
        simp only [lower, List.map_cons]
        exact lstrip_cons_not _ (by rw [lowerChar_ws]; exact hw)
      rw [h1, lstrip_cons_not as hw]

theorem lower_reverse (l : List Char) : lower l.reverse = (lower l).reverse := by
  simp [lower, List.map_reverse]

theorem rstrip_lower (l : List Char) : rstrip (lower l) = lower (rstrip l) := by
  unfold rstrip
  rw [← lower_reverse, lstrip_lower, lower_reverse]

theorem strip_lower (l : List Char) : strip (lower l) = lower (strip l) := by
  unfold strip
  rw [rstrip_lower, lstrip_lower]

theorem subIn_nil_left (l : List Char) : subIn [] l = true := by
  cases l <;> simp [subIn, isPre, List.isEmpty]

theorem isPre_append (n : List Char) :
    ∀ x y, isPre n x = true → isPre n (x ++ y) = true := by
  induction n with
  | nil => intro x y _; cases x <;> simp [isPre]
  | cons a as ih =>
    intro x y h
    cases x with
    | nil => simp [isPre] at h
    | cons b bs =>
      simp only [isPre, Bool.and_eq_true] at h
      simp only [List.cons_append, isPre, Bool.and_eq_true]
      exact ⟨h.1, ih bs y h.2⟩

theorem subIn_of_isPre (n h_list : List Char) (h : isPre n h_list = true) :
    subIn n h_list = true := by
  cases h_list with
  | nil =>
    cases n with
    | nil => exact subIn_nil_left []
    | cons a as => simp [isPre] at h
  | cons c t => simp [subIn, h]

theorem subIn_cons (n : List Char) (c : Char) (t : List Char) (h : subIn n t = true) :
    subIn n (c :: t) = true := by
  simp [subIn, h]

theorem subIn_append_right (n : List Char) :
    ∀ x y, subIn n x = true → subIn n (x ++ y) = true := by
  intro x
  induction x with
  | nil =>
    intro y h
    have hn : n = [] := by
      cases n with
      | nil => rfl
      | cons a as => simp [subIn, List.isEmpty] at h
    rw [hn]
    exact subIn_nil_left _
  | cons a l ih =>
    intro y h
    simp only [subIn, Bool.or_eq_true] at h
    rcases h with h | h
    · rw [List.cons_append]
      exact subIn_of_isPre _ _ (isPre_append n (a :: l) y h)
    · rw [List.cons_append]
      exact subIn_cons _ _ _ (ih y h)

theorem subIn_append_left (n : List Char) :
    ∀ x t, subIn n t = true → subIn n (x ++ t) = true := by
  intro x t
  induction x with
  | nil => intro h; exact h
  | cons a l ih => intro h; exact subIn_cons _ _ _ (ih h)

theorem isPre_split :
    ∀ (n : List Char), ' ' ∉ n →
      ∀ x y, isPre n (x ++ ' ' :: y) = true → isPre n x = true := by
  intro n
  induction n with
  | nil => intro _ x y _; cases x <;> simp [isPre]
  | cons a as ih =>
    intro hsp x y h
    cases x with
    | nil =>
      simp only [List.nil_append, isPre, Bool.and_eq_true, beq_iff_eq] at h
      exact absurd (h.1 ▸ List.mem_cons_self a as) hsp
    | cons b bs =>
      simp only [List.cons_append, isPre, Bool.and_eq_true] at h
      have hsp2 : ' ' ∉ as := fun hm => hsp (List.mem_cons_of_mem a hm)
      simp only [isPre, Bool.and_eq_true]
      exact ⟨h.1, ih hsp2 bs y h.2⟩

theorem subIn_split (n : List Char) (hsp : ' ' ∉ n) :
    ∀ x y, subIn n (x ++ ' ' :: y) = true → subIn n x = true ∨ subIn n y = true := by
  intro x
  induction x with
  | nil =>
    intro y h
    simp only [List.nil_append, subIn, Bool.or_eq_true] at h
    rcases h with h | h
    · cases n with
      | nil => exact Or.inl (subIn_nil_left _)
      | cons a as =>
        simp only [isPre, Bool.and_eq_true, beq_iff_eq] at h
        exact absurd (h.1 ▸ List.mem_cons_self a as) hsp
    · exact Or.inr h
  | cons a l ih =>
    intro y h
    rw [List.cons_append] at h
    simp only [subIn, Bool.or_eq_true] at h
    rcases h with h | h
    · exact Or.inl (subIn_of_isPre _ _ (isPre_split n hsp (a :: l) y h))
    · rcases ih y h with h2 | h2
      · exact Or.inl (subIn_cons _ _ _ h2)
      · exact Or.inr h2

/- ===================== theorems: normalizer ===================== -/

theorem brand_values_fixed :
    ∀ p ∈ brandPairs, normalize_brand (some p.2) = some p.2 := by
  decide

theorem lowerChar_space : lowerChar ' ' = ' ' := by decide

theorem catText_eq (c t : List Char) : catText c t = lower c ++ ' ' :: lower t := by
  simp [catText, lower, List.map_append, lowerChar_space]

theorem anyKw_extend (kws : List (List Char)) (name lt : List Char)
    (hhit : anyKw kws name = true) :
    anyKw kws (name ++ ' ' :: lt) = true := by
  obtain ⟨kw, hmem, hsub⟩ := List.any_eq_true.mp hhit
  exact List.any_eq_true.mpr ⟨kw, hmem, subIn_append_right kw name (' ' :: lt) hsub⟩

theorem anyKw_transfer_false (kws : List (List Char)) (name lc lt : List Char)
    (hspace : ∀ kw ∈ kws, ' ' ∉ kw)
    (hname : ∀ kw ∈ kws, subIn kw name = false)
    (htext : anyKw kws (lc ++ ' ' :: lt) = false) :
    anyKw kws (name ++ ' ' :: lt) = false := by
  cases hh : anyKw kws (name ++ ' ' :: lt) with
  | false => rfl
  | true =>
    obtain ⟨kw, hmem, hsub⟩ := List.any_eq_true.mp hh
    rcases subIn_split kw (hspace kw hmem) name lt hsub with h1 | h1
    · rw [hname kw hmem] at h1
      exact absurd h1 (by simp)
    · have h2 : subIn kw (lc ++ ' ' :: lt) = true :=
        subIn_append_left kw lc (' ' :: lt) (subIn_cons kw ' ' lt h1)

      have h3 : anyKw kws (lc ++ ' ' :: lt) = true :=
        List.any_eq_true.mpr ⟨kw, hmem, h2⟩
      rw [htext] at h3
      exact absurd h3 (by simp)

theorem normalize_brand_idem (b : Option (List Char)) :
    normalize_brand (normalize_brand b) = normalize_brand b := by
  cases b with
  | none => rfl
  | some s =>
    cases h : alookup brandPairs (strip (lower s)) with
    | some v =>
      have hv := brand_values_fixed _ (alookup_mem h)
      simp only [normalize_brand, h, Option.getD_some]
      simpa [normalize_brand] using hv
    | none =>
      have hkey : strip (lower (strip s)) = strip (lower s) := by
        rw [strip_lower, strip_idem, strip_lower]
      simp only [normalize_brand, h, Option.getD_none]
      rw [hkey, h, strip_idem]
      rfl

theorem normalize_category_idem (c t : List Char) :
    normalize_category (normalize_category c t) t = normalize_category c t := by
  cases h1 : anyKw dressKws (catText c t) with
  | true =>
    have hres : normalize_category c t = cs "Dress" := by
      simp [normalize_category, h1]
    rw [hres]
    have hd : anyKw dressKws (catText (cs "Dress") t) = true := by
      rw [catText_eq]
      exact anyKw_extend _ _ _ (by decide)
    simp [normalize_category, hd]
  | false =>
    rw [catText_eq] at h1
    cases h2 : anyKw sneakerKws (catText c t) with
    | true =>
      have hres : normalize_category c t = cs "Sneakers" := by
        simp [normalize_category, h2]
        intro hcon
        rw [catText_eq, h1] at hcon
        exact absurd hcon (by simp)
      rw [hres]
      have hd : anyKw dressKws (catText (cs "Sneakers") t) = false := by
        rw [catText_eq]
        exact anyKw_transfer_false _ _ _ _ (by decide) (by decide) h1
      have hs : anyKw sneakerKws (catText (cs "Sneakers") t) = true := by
        rw [catText_eq]
        exact anyKw_extend _ _ _ (by decide)
      simp [normalize_category, hd, hs]
    | false =>
      rw [catText_eq] at h2
      cases h3 : anyKw tshirtKws (catText c t) with
      | true =>
        have hres : normalize_category c t = cs "T-shirt" := by
          rw [normalize_category, catText_eq, h1, h2]
          simp [h3, ← catText_eq]
        rw [hres]
        have hd : anyKw dressKws (catText (cs "T-shirt") t) = false := by
          rw [catText_eq]
          exact anyKw_transfer_false _ _ _ _ (by decide) (by decide) h1
        have hs : anyKw sneakerKws (catText (cs "T-shirt") t) = false := by
          rw [catText_eq]
          exact anyKw_transfer_false _ _ _ _ (by decide) (by decide) h2
        have ht : anyKw tshirtKws (catText (cs "T-shirt") t) = true := by
          rw [catText_eq]
          exact anyKw_extend _ _ _ (by decide)
        simp [normalize_category, hd, hs, ht]
      | false =>
        rw [catText_eq] at h3
        cases h4 : anyKw jeansKws (catText c t) with
        | true =>
          have hres : normalize_category c t = cs "Jeans" := by
            rw [normalize_category, catText_eq, h1, h2, h3]
            simp [h4, ← catText_eq]
          rw [hres]
          have hd : anyKw dressKws (catText (cs "Jeans") t) = false := by
            rw [catText_eq]
            exact anyKw_transfer_false _ _ _ _ (by decide) (by decide) h1
          have hs : anyKw sneakerKws (catText (cs "Jeans") t) = false := by
            rw [catText_eq]
            exact anyKw_transfer_false _ _ _ _ (by decide) (by decide) h2
          have ht : anyKw tshirtKws (catText (cs "Jeans") t) = false := by
            rw [catText_eq]
            exact anyKw_transfer_false _ _ _ _ (by decide) (by decide) h3
          have hj : anyKw jeansKws (catText (cs "Jeans") t) = true := by
            rw [catText_eq]
            exact anyKw_extend _ _ _ (by decide)
          simp [normalize_category, hd, hs, ht, hj]
        | false =>
          rw [catText_eq] at h4
          have hres : normalize_category c t = c := by
            rw [normalize_category, catText_eq, h1, h2, h3, h4]
            simp
          rw [hres]
          rw [normalize_category, catText_eq, h1, h2, h3, h4]
          simp

theorem condition_some_mem (s : List Char) :
    normalize_condition (some s) = cs "New/Like new" ∨
    normalize_condition (some s) = cs "Very good/Good" ∨
    normalize_condition (some s) = cs "Average/Poor" := by
  simp only [normalize_condition]
  split_ifs <;> simp

theorem normalize_condition_some_idem (s : List Char) :
    normalize_condition (some (normalize_condition (some s))) =
      normalize_condition (some s) := by
  rcases condition_some_mem s with h | h | h <;> rw [h] <;> decide

/- ===================== theorems: reconciler helpers ===================== -/

theorem isEmpty_false_of_mem {α : Type} {l : List α} {a : α} (h : a ∈ l) :
    l.isEmpty = false := by
  cases l with
  | nil => simp at h
  | cons x xs => rfl

theorem mem_sold_items (current previous : List Listing) (now : Int) (p : Listing)
    (hp : p ∈ previous) (hmiss : p.item_id ∉ itemIds current) :
    {p with status := Status.sold, last_seen_at := now} ∈ soldItemsOf current previous now := by
  unfold soldItemsOf
  exact List.mem_map.mpr ⟨p, List.mem_filter.mpr ⟨hp, by simpa using hmiss⟩, rfl⟩

theorem mem_update_sold (current previous : List Listing) (now : Int) (p : Listing)
    (hp : p ∈ previous) (hmiss : p.item_id ∉ itemIds current) :
    {p with status := Status.sold, last_seen_at := now} ∈
      update_listings_database current previous now := by
  have h1 := mem_sold_items current previous now p hp hmiss
  have h2 : update_listings_database current previous now =
      existingItemsOf current previous ++ newItemsOf current previous ++
        soldItemsOf current previous now := by
    unfold update_listings_database
    rw [isEmpty_false_of_mem hp, if_neg (by decide)]
  rw [h2]
  exact List.mem_append_right _ h1

theorem detect_sold_mem {current previous : List Listing} {now ht : Int} {ev : SoldEvent}
    (hev : ev ∈ detect_sold_items current previous now ht) :
    ∃ id item, id ∈ missingIds current previous ∧ findRow previous id = some item ∧
      ev = soldEventOf item now := by
  unfold detect_sold_items at hev
  by_cases hprev : previous.isEmpty = true
  · rw [if_pos hprev] at hev
    simp at hev
  · rw [if_neg hprev] at hev
    obtain ⟨id, hid, hmap⟩ := List.mem_filterMap.mp hev
    cases hfr : findRow previous id with
    | none => rw [hfr] at hmap; simp at hmap
    | some item =>
      rw [hfr] at hmap
      simp only [Option.map_some', Option.some.injEq] at hmap
      exact ⟨id, item, hid, hfr, hmap.symm⟩

/- ===================== theorems: claims on the reconciler ===================== -/

/-- C1 counterexample: a previously-active item that has been missing for
only one hour (far below the 48-hour threshold) is nevertheless marked
sold by `update_listings_database`, refuting the claim that an item with
`time_missing < missing_threshold` stays active. -/
theorem C1_below_threshold_sold_cex :
    (103600 : Int) - (sampleListing 1 20 0 100000 none).last_seen_at < 48 * hour ∧
    (update_listings_database [] [sampleListing 1 20 0 100000 none] 103600).map
        (fun r => r.status) = [Status.sold] := by
  decide

/-- C1 (amended): every previously-listed item absent from the current
snapshot is marked sold by the run unconditionally, whatever its time
missing; the 48-hour threshold only grades the `sold_confidence` on the
emitted event, and a sold event is emitted for the item in the same run. -/
theorem C1_missing_marked_sold (current previous : List Listing) (now : Int)
    (p : Listing) (hp : p ∈ previous) (hmiss : p.item_id ∉ itemIds current) :
    ({p with status := Status.sold, last_seen_at := now} ∈
        update_listings_database current previous now) ∧
    ∃ ev ∈ detect_sold_items current previous now 48, ev.item_id = p.item_id := by
  refine ⟨mem_update_sold current previous now p hp hmiss, ?_⟩
  have hid : p.item_id ∈ missingIds current previous := by
    unfold missingIds
    refine List.mem_filter.mpr ⟨?_, by simpa using hmiss⟩
    exact List.mem_dedup.mpr (List.mem_map.mpr ⟨p, hp, rfl⟩)
  have hfind : ∃ item, findRow previous p.item_id = some item := by
    cases hfr : findRow previous p.item_id with
    | some item => exact ⟨item, rfl⟩
    | none =>
      exfalso
      have := List.find?_eq_none.mp hfr p hp
      simp at this
  obtain ⟨item, hfr⟩ := hfind
  refine ⟨soldEventOf item now, ?_, ?_⟩
  · unfold detect_sold_items
    rw [isEmpty_false_of_mem hp, if_neg (by decide)]
    exact List.mem_filterMap.mpr ⟨p.item_id, hid, by rw [hfr]; rfl⟩
  · have := List.find?_some hfr
    simpa [soldEventOf] using this

/-- C1 witness: the amended statement evaluated on a one-element previous
table and an empty current snapshot. -/
theorem C1_missing_marked_sold_witness :
    ({sampleListing 1 20 0 100000 none with
        status := Status.sold, last_seen_at := (103600 : Int)} ∈
      update_listings_database [] [sampleListing 1 20 0 100000 none] 103600) ∧
    ∃ ev ∈ detect_sold_items [] [sampleListing 1 20 0 100000 none] 103600 48,
      ev.item_id = (sampleListing 1 20 0 100000 none).item_id :=
  C1_missing_marked_sold [] [sampleListing 1 20 0 100000 none] 103600
    (sampleListing 1 20 0 100000 none) (by simp) (by decide)

/-- C4 counterexample: for an item last seen at time 0 with a published
date of 43200 and detection at 604800, the emitted event has
`sold_at = 604800` (the detection time, not `last_seen_at` plus a 24-hour
half interval) and `days_to_sell = 6.5` days, which differs from
`(sold_at - first_seen_at) / 86400 = 7`, so days-to-sell is not measured
from the claimed estimate and first observation. -/
theorem C4_sold_timestamp_cex :
    ((detect_sold_items [] [sampleListing 2 15 0 0 (some 43200)] 604800 48).map
        (fun e => e.sold_at) = [604800]) ∧
    (604800 : Int) ≠ (sampleListing 2 15 0 0 (some 43200)).last_seen_at + 86400 ∧
    ((detect_sold_items [] [sampleListing 2 15 0 0 (some 43200)] 604800 48).map
        (fun e => e.days_to_sell) = [13/2]) ∧
    ((13 : ℚ)/2 ≠
      ((604800 - (sampleListing 2 15 0 0 (some 43200)).first_seen_at : Int) : ℚ) / 86400) := by
  have hrun : detect_sold_items [] [sampleListing 2 15 0 0 (some 43200)] 604800 48 =
      [soldEventOf (sampleListing 2 15 0 0 (some 43200)) 604800] := rfl
  refine ⟨?_, by decide, ?_, ?_⟩
  · rw [hrun]
    rfl
  · rw [hrun]
    simp only [List.map_cons, List.map_nil, soldEventOf, listingDate, sampleListing,
      Option.getD_some]
    norm_num
  · simp only [sampleListing]
    norm_num

/-- C4 (amended): every emitted sold event records the detection time `now`
as `sold_at`, and its `days_to_sell` is the seconds from the listing date
(`published_at` when present, else `first_seen_at`) to `now`, divided by
86400 — not a midpoint estimate above `last_seen_at`. -/
theorem C4_sold_event_fields (current previous : List Listing) (now : Int) (ev : SoldEvent)
    (hev : ev ∈ detect_sold_items current previous now 48) :
    ∃ item, findRow previous ev.item_id = some item ∧ ev.sold_at = now ∧
      ev.published_at = listingDate item ∧ ev.first_seen_at = item.first_seen_at ∧
      ev.days_to_sell = ((now - listingDate item : Int) : ℚ) / 86400 := by
  obtain ⟨id, item, hid, hfr, hev2⟩ := detect_sold_mem hev
  have hitem_id : item.item_id = id := by
    have := List.find?_some hfr
    simpa using this
  subst hev2
  refine ⟨item, ?_, rfl, rfl, rfl, rfl⟩
  show findRow previous item.item_id = some item
  rw [hitem_id]
  exact hfr

/-- C4 witness: the amended statement evaluated on the concrete run of the
counterexample. -/
theorem C4_sold_event_fields_witness :
    ∃ item,
      findRow [sampleListing 2 15 0 0 (some 43200)]
        (soldEventOf (sampleListing 2 15 0 0 (some 43200)) 604800).item_id = some item ∧
      (soldEventOf (sampleListing 2 15 0 0 (some 43200)) 604800).sold_at = 604800 ∧
      (soldEventOf (sampleListing 2 15 0 0 (some 43200)) 604800).published_at =
        listingDate item ∧
      (soldEventOf (sampleListing 2 15 0 0 (some 43200)) 604800).first_seen_at =
        item.first_seen_at ∧
      (soldEventOf (sampleListing 2 15 0 0 (some 43200)) 604800).days_to_sell =
        ((604800 - listingDate item : Int) : ℚ) / 86400 := by
  apply C4_sold_event_fields [] [sampleListing 2 15 0 0 (some 43200)] 604800
  show soldEventOf (sampleListing 2 15 0 0 (some 43200)) 604800 ∈
    [soldEventOf (sampleListing 2 15 0 0 (some 43200)) 604800]
  exact List.mem_singleton_self _

/-- C5 counterexample: appending the same detected sold-event batch twice
(two identical runs of the save step) leaves the event log with two copies
of the same event_id, refuting the claim that the log append deduplicates. -/
theorem C5_duplicate_event_ids_cex :
    ¬ ((appendEvents (appendEvents ([] : List SoldEvent)
          (detect_sold_items [] [sampleListing 5 20 0 0 none] 200000 48))
          (detect_sold_items [] [sampleListing 5 20 0 0 none] 200000 48)).map
        (fun e => e.event_id)).Nodup ∧
    (appendEvents (appendEvents ([] : List SoldEvent)
          (detect_sold_items [] [sampleListing 5 20 0 0 none] 200000 48))
          (detect_sold_items [] [sampleListing 5 20 0 0 none] 200000 48)).length = 2 := by
  decide

/-- C5 (amended): event batches are deterministic only given a fixed clock,
and the save step performs no deduplication: appending the batch of one
detection run twice leaves every event_id of the batch at least twice in
the log. -/
theorem C5_append_duplicates (log : List SoldEvent) (current previous : List Listing)
    (now : Int) (e : SoldEvent) (he : e ∈ detect_sold_items current previous now 48) :
    2 ≤ ((appendEvents (appendEvents log (detect_sold_items current previous now 48))
        (detect_sold_items current previous now 48)).map (fun x => x.event_id)).count
      e.event_id := by
  have hne : (detect_sold_items current previous now 48).isEmpty = false :=
    isEmpty_false_of_mem he
  have happ : appendEvents (appendEvents log (detect_sold_items current previous now 48))
      (detect_sold_items current previous now 48) =
      log ++ detect_sold_items current previous now 48 ++
        detect_sold_items current previous now 48 := by
    unfold appendEvents
    rw [hne]
    rfl
  rw [happ, List.map_append, List.map_append, List.count_append, List.count_append]
  have h1 : 0 <
      ((detect_sold_items current previous now 48).map (fun x => x.event_id)).count
        e.event_id := by
    rw [List.count_pos_iff]
    exact List.mem_map.mpr ⟨e, he, rfl⟩
  omega

/-- C5 witness: the amended statement evaluated on the concrete
one-item run of the counterexample, starting from an empty log. -/
theorem C5_append_duplicates_witness :
    2 ≤ ((appendEvents (appendEvents ([] : List SoldEvent)
        (detect_sold_items [] [sampleListing 5 20 0 0 none] 200000 48))
        (detect_sold_items [] [sampleListing 5 20 0 0 none] 200000 48)).map
        (fun x => x.event_id)).count
      (soldEventOf (sampleListing 5 20 0 0 none) 200000).event_id := by
  apply C5_append_duplicates [] [] [sampleListing 5 20 0 0 none] 200000
  show soldEventOf (sampleListing 5 20 0 0 none) 200000 ∈
    [soldEventOf (sampleListing 5 20 0 0 none) 200000]
  exact List.mem_singleton_self _

/-- C7 counterexample: the transition run overwrites the sold row's
`last_seen_at` with the detection time 700000 instead of freezing it at
the last observed value 100000. -/
theorem C7_last_seen_overwritten_cex :
    (update_listings_database [] [sampleListing 4 20 0 100000 none] 700000).map
        (fun r => r.last_seen_at) = [700000] ∧
    (700000 : Int) ≠ (sampleListing 4 20 0 100000 none).last_seen_at := by
  decide

/-- C7 (amended): on the run that marks a listing sold, the reconciler sets
its `last_seen_at` to the detection time `now`; it is not frozen at the
last observed value. -/
theorem C7_last_seen_set_to_now (current previous : List Listing) (now : Int)
    (p : Listing) (hp : p ∈ previous) (hmiss : p.item_id ∉ itemIds current) :
    ∃ r ∈ update_listings_database current previous now,
      r.item_id = p.item_id ∧ r.status = Status.sold ∧ r.last_seen_at = now ∧
      r.first_seen_at = p.first_seen_at :=
  ⟨{p with status := Status.sold, last_seen_at := now},
    mem_update_sold current previous now p hp hmiss, rfl, rfl, rfl, rfl⟩

/-- C7 witness: the amended statement evaluated on the concrete run of the
counterexample. -/
theorem C7_last_seen_set_to_now_witness :
    ∃ r ∈ update_listings_database [] [sampleListing 4 20 0 100000 none] 700000,
      r.item_id = (sampleListing 4 20 0 100000 none).item_id ∧
      r.status = Status.sold ∧ r.last_seen_at = 700000 ∧
      r.first_seen_at = (sampleListing 4 20 0 100000 none).first_seen_at :=
  C7_last_seen_set_to_now [] [sampleListing 4 20 0 100000 none] 700000
    (sampleListing 4 20 0 100000 none) (by simp) (by decide)

/-- C8 counterexample: an item whose recorded `published_at` (90400) lies
after the detection time (4000) yields a sold event with
`days_to_sell = -1`, refuting the claim that days-to-sell is non-negative
regardless of the recorded timestamps. -/
theorem C8_negative_days_cex :
    (detect_sold_items [] [sampleListing 3 10 0 0 (some 90400)] 4000 48).map
        (fun e => e.days_to_sell) = [-1] ∧
    ¬ (0 ≤ (-1 : ℚ)) := by
  have hrun : detect_sold_items [] [sampleListing 3 10 0 0 (some 90400)] 4000 48 =
      [soldEventOf (sampleListing 3 10 0 0 (some 90400)) 4000] := rfl
  refine ⟨?_, by norm_num⟩
  rw [hrun]
  simp only [List.map_cons, List.map_nil, soldEventOf, listingDate, sampleListing,
    Option.getD_some]
  norm_num

/-- C8 (amended): days-to-sell of every emitted sold event is non-negative
provided every previous row's listing date (`published_at` when present,
else `first_seen_at`) does not lie after the detection time; with a future
listing date the code emits a negative value. -/
theorem C8_days_nonneg_past_dates (current previous : List Listing) (now : Int)
    (hpast : ∀ item ∈ previous, listingDate item ≤ now)
    (ev : SoldEvent) (hev : ev ∈ detect_sold_items current previous now 48) :
    0 ≤ ev.days_to_sell := by
  obtain ⟨id, item, hid, hfr, hev2⟩ := detect_sold_mem hev
  have hmem : item ∈ previous := List.mem_of_find?_eq_some hfr
  have hle : listingDate item ≤ now := hpast item hmem
  subst hev2
  show 0 ≤ ((now - listingDate item : Int) : ℚ) / 86400
  apply div_nonneg
  · exact_mod_cast Int.sub_nonneg.mpr hle
  · norm_num

/-- C8 witness: the amended statement evaluated on a run whose single
previous row has its listing date before the detection time. -/
theorem C8_days_nonneg_past_dates_witness :
    0 ≤ (soldEventOf (sampleListing 11 20 0 0 none) 100000).days_to_sell := by
  apply C8_days_nonneg_past_dates [] [sampleListing 11 20 0 0 none] 100000 (by decide)
  show soldEventOf (sampleListing 11 20 0 0 none) 100000 ∈
    [soldEventOf (sampleListing 11 20 0 0 none) 100000]
  exact List.mem_singleton_self _

/- ===================== theorems: claims on the normalizer ===================== -/

/-- C6 counterexample: `normalize_condition` maps a missing value to the
Unknown bucket, but applying the function to that output yields
Average/Poor, so it is not idempotent on the missing-value path. -/
theorem C6_condition_nan_cex :
    normalize_condition (some (normalize_condition none)) = cs "Average/Poor" ∧
    normalize_condition none = cs "Unknown" ∧
    cs "Average/Poor" ≠ cs "Unknown" := by
  decide

/-- C6 (amended): `normalize_brand` and `normalize_category` are idempotent
on all inputs, and `normalize_condition` is idempotent on every present
(non-missing) input; only the Unknown bucket produced from a missing value
re-normalizes to a different bucket. -/
theorem C6_normalization_idem :
    (∀ b, normalize_brand (normalize_brand b) = normalize_brand b) ∧
    (∀ c t, normalize_category (normalize_category c t) t = normalize_category c t) ∧
    (∀ s, normalize_condition (some (normalize_condition (some s))) =
        normalize_condition (some s)) :=
  ⟨normalize_brand_idem, normalize_category_idem, normalize_condition_some_idem⟩

/- ===================== theorems: claims on the KPI engine ===================== -/

/-- C2 counterexample: with one full-confidence sold event inside 30 days
and two listings matching the (empty) filter, the code reports a
sell-through of 100 percent while the claimed formula (numerator over the
count of all matching listings) gives 50 percent: the denominator is not
the listings count. -/
theorem C2_denominator_cex :
    ((calculate_sell_through_30d [evHigh]
        [sampleListing 6 20 0 0 none, sampleListing 7 30 0 0 none] noFilter).map
      (fun st => st.percentage) = some 100) ∧
    ((calculate_sell_through_30d [evHigh]
        [sampleListing 6 20 0 0 none, sampleListing 7 30 0 0 none] noFilter).map
      (fun st => st.total_sold) = some 1) ∧
    (applyFiltersListings noFilter
        [sampleListing 6 20 0 0 none, sampleListing 7 30 0 0 none]).length = 2 ∧
    spec_sell_through_30d [evHigh]
        [sampleListing 6 20 0 0 none, sampleListing 7 30 0 0 none] noFilter = some 50 ∧
    (100 : ℚ) ≠ 50 := by
  have hcode : calculate_sell_through_30d [evHigh]
      [sampleListing 6 20 0 0 none, sampleListing 7 30 0 0 none] noFilter =
      some { percentage := (((1 : ℕ) : ℚ) / ((1 : ℕ) : ℚ)) * 100,
             sold_30d := 1, total_sold := 1 } := rfl
  refine ⟨?_, ?_, by decide, ?_, by norm_num⟩
  · rw [hcode]
    simp only [Option.map_some']
    norm_num
  · rw [hcode]
    rfl
  · unfold spec_sell_through_30d
    rw [if_neg (by decide)]
    have h1 : ((sold30Of noFilter [evHigh]).length : ℚ) = 1 := by
      norm_num [show (sold30Of noFilter [evHigh]).length = 1 from rfl]
    have h2 : ((applyFiltersListings noFilter
        [sampleListing 6 20 0 0 none, sampleListing 7 30 0 0 none]).length : ℚ) = 2 := by
      norm_num [show (applyFiltersListings noFilter
        [sampleListing 6 20 0 0 none, sampleListing 7 30 0 0 none]).length = 2 from rfl]
    rw [h1, h2]
    rw [show ((1 : ℚ) / 2) * 100 = 50 by norm_num]
    rw [min_eq_left (by norm_num : (50 : ℚ) ≤ 100)]

/-- C2 (amended): the source sell-through denominator is the count of
filtered sold events with confidence at least 0.5 (the listings table is
never consulted); the percentage therefore equals sold-within-30-days over
that count, is automatically within 0 and 100 with no explicit cap, and
the function returns none exactly when the events table is empty or no
filtered event reaches the confidence threshold. -/
theorem C2_sell_through_formula (events : List SoldEvent) (listings : List Listing)
    (f : Filters) :
    (calculate_sell_through_30d events listings f = none ↔
      (events.isEmpty = true ∨ (highConfOf f events).isEmpty = true)) ∧
    ∀ st, calculate_sell_through_30d events listings f = some st →
      st.total_sold = (highConfOf f events).length ∧
      st.sold_30d = (sold30Of f events).length ∧
      st.percentage = ((st.sold_30d : ℚ) / (st.total_sold : ℚ)) * 100 ∧
      st.sold_30d ≤ st.total_sold ∧ 0 < st.total_sold ∧
      0 ≤ st.percentage ∧ st.percentage ≤ 100 := by
  unfold calculate_sell_through_30d
  by_cases h1 : events.isEmpty = true
  · rw [if_pos h1]
    refine ⟨by simp [h1], ?_⟩
    intro st hst
    simp at hst
  · rw [if_neg h1]
    by_cases h2 : (highConfOf f events).isEmpty = true
    · rw [if_pos h2]
      refine ⟨by simp [h2], ?_⟩
      intro st hst
      simp at hst
    · rw [if_neg h2]
      constructor
      · constructor
        · intro hcon
          simp at hcon
        · intro hor
          rcases hor with h | h
          · exact absurd h h1
          · exact absurd h h2
      · intro st hst
        obtain rfl := (Option.some.inj hst)
        have hab : (sold30Of f events).length ≤ (highConfOf f events).length :=
          List.length_filter_le _ _
        have hbpos : 0 < (highConfOf f events).length := by
          apply List.length_pos.mpr
          intro hnil
          rw [hnil] at h2
          exact h2 rfl
        have hdiv : ((sold30Of f events).length : ℚ) / ((highConfOf f events).length : ℚ) ≤ 1 := by
          apply div_le_one_of_le
          · exact_mod_cast hab
          · positivity
        refine ⟨rfl, rfl, rfl, hab, hbpos, ?_, ?_⟩
        · show 0 ≤ (((sold30Of f events).length : ℚ) / ((highConfOf f events).length : ℚ)) * 100
          positivity
        · show (((sold30Of f events).length : ℚ) / ((highConfOf f events).length : ℚ)) * 100 ≤ 100
          calc (((sold30Of f events).length : ℚ) / ((highConfOf f events).length : ℚ)) * 100
              ≤ 1 * 100 := by
                exact mul_le_mul_of_nonneg_right hdiv (by norm_num)
            _ = 100 := by norm_num

/-- C2 witness: the amended statement evaluated on a zero-confidence event
(none branch) and on a single full-confidence event (some branch). -/
theorem C2_sell_through_formula_witness :
    calculate_sell_through_30d [evLow] [] noFilter = none ∧
    (((1 : ℕ) : ℚ) / ((1 : ℕ) : ℚ)) * 100 ≤ 100 := by
  constructor
  · exact (C2_sell_through_formula [evLow] [] noFilter).1.mpr (Or.inr (by decide))
  · have h := (C2_sell_through_formula [evHigh] [] noFilter).2
      { percentage := (((1 : ℕ) : ℚ) / ((1 : ℕ) : ℚ)) * 100, sold_30d := 1, total_sold := 1 }
      rfl
    exact h.2.2.2.2.2.2

/-- C3 counterexample: on degenerate inputs (sell-through 300 percent,
median days-to-sell minus 30) the code returns an uncapped score of 250:
the composite is not min of components with 50 and is not bounded by 100. -/
theorem C3_uncapped_score_cex :
    ((calculate_liquidity_score (some degenerateDts) (some degenerateSt)).map
      (fun l => l.score) = some 250) ∧
    ¬ ((250 : ℚ) ≤ 100) ∧
    (250 : ℚ) ≠ min (150 : ℚ) 50 + min (100 : ℚ) 50 := by
  refine ⟨?_, by norm_num, ?_⟩
  · simp only [calculate_liquidity_score, Option.map_some', degenerateDts, degenerateSt]
    norm_num [max_def]
  · have hmin : min (150 : ℚ) 50 + min (100 : ℚ) 50 = 100 := by
      rw [min_eq_right (by norm_num : (50 : ℚ) ≤ 150),
        min_eq_right (by norm_num : (50 : ℚ) ≤ 100)]
      norm_num
    rw [hmin]
    norm_num

/-- C3 (amended): the code computes the score as the plain sum of the
uncapped sell-through component `percentage / 100 * 50` and the
zero-floored speed component, with no clamping of the sum; the 0 to 100
bound only holds when the inputs are themselves well-formed (percentage
between 0 and 100 and a non-negative median). -/
theorem C3_liquidity_bounds (d : DtsStats) (s : SellThroughStats)
    (hp0 : 0 ≤ s.percentage) (hp1 : s.percentage ≤ 100) (hm : 0 ≤ d.median) :
    ∃ l, calculate_liquidity_score (some d) (some s) = some l ∧
      l.score = l.sell_through_component + l.dts_component ∧
      0 ≤ l.score ∧ l.score ≤ 100 := by
  have hA0 : 0 ≤ s.percentage / 100 * 50 := by
    apply mul_nonneg
    · exact div_nonneg hp0 (by norm_num)
    · norm_num
  have hA1 : s.percentage / 100 * 50 ≤ 50 := by
    have h : s.percentage / 100 ≤ 1 := by
      apply div_le_one_of_le hp1
      norm_num
    calc s.percentage / 100 * 50 ≤ 1 * 50 := mul_le_mul_of_nonneg_right h (by norm_num)
      _ = 50 := by norm_num
  have hB0 : 0 ≤ max 0 ((1 - d.median / 30) * 50) := le_max_left 0 _
  have hB1 : max 0 ((1 - d.median / 30) * 50) ≤ 50 := by
    apply max_le (by norm_num)
    have h2 : 0 ≤ d.median / 30 := div_nonneg hm (by norm_num)
    nlinarith [h2]
  refine ⟨_, rfl, rfl, ?_, ?_⟩
  · exact add_nonneg hA0 hB0
  · show s.percentage / 100 * 50 + max 0 ((1 - d.median / 30) * 50) ≤ 100
    linarith

/-- C3 witness: the amended statement evaluated on well-formed inputs
(40 percent sell-through, median 10 days). -/
theorem C3_liquidity_bounds_witness :
    ∃ l, calculate_liquidity_score (some okDts) (some okSt) = some l ∧
      l.score = l.sell_through_component + l.dts_component ∧
      0 ≤ l.score ∧ l.score ≤ 100 :=
  C3_liquidity_bounds okDts okSt (by norm_num [okSt]) (by norm_num [okSt])
    (by norm_num [okDts])

/-- C9: when the events table is empty or no filtered event reaches the
0.5 confidence threshold, `calculate_days_to_sell` returns the no-data
sentinel none; the model is a total function, so no exception is possible. -/
theorem C9_dts_no_data (events : List SoldEvent) (f : Filters)
    (h : (highConfOf f events).isEmpty = true) :
    calculate_days_to_sell events f = none := by
  unfold calculate_days_to_sell
  by_cases he : events.isEmpty = true
  · rw [if_pos he]
  · rw [if_neg he, if_pos h]

/-- C9 witness: a single zero-confidence event yields none. -/
theorem C9_dts_no_data_witness :
    calculate_days_to_sell [evLow] noFilter = none :=
  C9_dts_no_data [evLow] noFilter (by decide)

/-- C10: `calculate_price_distribution` returns none exactly when the
filters match no listing; when matches exist but every price is
non-positive, it instead returns a statistics record with count 0 and
missing (NaN) quantiles, because the zero-price exclusion runs after the
emptiness check. -/
theorem C10_price_distribution_none_iff (listings : List Listing) (f : Filters) :
    (calculate_price_distribution listings f = none ↔
      (applyFiltersListings f listings).isEmpty = true) ∧
    ((applyFiltersListings f listings).isEmpty = false →
      (∀ r ∈ applyFiltersListings f listings, r.price ≤ 0) →
      ∃ st, calculate_price_distribution listings f = some st ∧
        st.count = 0 ∧ st.p25 = none ∧ st.p50 = none ∧ st.p75 = none) := by
  unfold calculate_price_distribution
  by_cases h : (applyFiltersListings f listings).isEmpty = true
  · rw [if_pos h]
    refine ⟨by simp [h], ?_⟩
    intro hfalse
    rw [h] at hfalse
    simp at hfalse
  · rw [if_neg h]
    constructor
    · constructor
      · intro hcon
        simp at hcon
      · intro htrue
        exact absurd htrue h
    · intro _ hall
      have hpos : posPricesOf f listings = [] := by
        unfold posPricesOf
        have hfil : (applyFiltersListings f listings).filter
            (fun r => decide (0 < r.price)) = [] := by
          rw [List.filter_eq_nil]
          intro r hr
          simp only [decide_eq_true_eq]
          exact not_lt.mpr (hall r hr)
        rw [hfil]
        rfl
      refine ⟨_, rfl, ?_, ?_, ?_, ?_⟩
      · show (posPricesOf f listings).length = 0
        rw [hpos]
        rfl
      · show quantileOpt (posPricesOf f listings) _ = none
        rw [hpos]
        rfl
      · show quantileOpt (posPricesOf f listings) _ = none
        rw [hpos]
        rfl
      · show quantileOpt (posPricesOf f listings) _ = none
        rw [hpos]
        rfl

/-- C10 witness: an empty table gives none, while a single zero-price
listing gives a record with count 0 and missing quantiles. -/
theorem C10_price_distribution_none_iff_witness :
    calculate_price_distribution ([] : List Listing) noFilter = none ∧
    ∃ st, calculate_price_distribution [sampleListing 8 0 0 0 none] noFilter = some st ∧
      st.count = 0 ∧ st.p25 = none ∧ st.p50 = none ∧ st.p75 = none := by
  constructor
  · exact (C10_price_distribution_none_iff [] noFilter).1.mpr (by decide)
  · exact (C10_price_distribution_none_iff [sampleListing 8 0 0 0 none] noFilter).2
      (by decide) (by decide)

end VintedSpec
